import Mathlib

/-!
Verification development for the TripSpark User microservice
(`main.py`, `models/user.py`, `userprofile.py`).

Shallow embedding conventions:
* `UUID` values are modelled as `Nat`; server-generated identifiers are passed
  to each operation as explicit parameters (the service draws them from a
  generator).
* `datetime.utcnow()` is modelled by a `Time := Nat` parameter `now` handed to
  each request handler; all `utcnow()` calls issued while serving one request
  observe the same instant, and distinct requests may observe distinct instants.
* Python floats carrying ratings and budgets are modelled as `ℚ`.
* The process-local dict `users : Dict[UUID, UserRead]` is modelled as an
  insertion-ordered association list; `dict.__setitem__` updates in place when
  the key is present and appends otherwise, `del` removes the entry.
* FastAPI request-body/query validation happens before a handler body runs, so
  each embedded operation performs the corresponding validation check first and
  returns `Err.validation` when it fails.
* `HTTPException` raised inside a handler is an `Except.error`; every operation
  also returns the store it leaves behind, so that "state unchanged on error"
  is a provable statement rather than a modelling artifact.
-/

abbrev UUID := Nat
abbrev Time := Nat

/-- Enum `Spending = Literal["low", "medium", "high"]` from `userprofile.py`. -/
inductive Spending
  | low
  | medium
  | high
deriving DecidableEq, Repr

/-- Enum `TripPace = Literal["slow", "balanced", "packed"]` from `userprofile.py`. -/
inductive TripPace
  | slow
  | balanced
  | packed
deriving DecidableEq, Repr

/-- Enum `Season = Literal["spring", "summer", "fall", "winter"]` from `userprofile.py`. -/
inductive Season
  | spring
  | summer
  | fall
  | winter
deriving DecidableEq, Repr

/-- Enum `Transport = Literal["walk", "public_transit", "rideshare", "car_rental"]`. -/
inductive Transport
  | walk
  | public_transit
  | rideshare
  | car_rental
deriving DecidableEq, Repr

/-- An optional rating respects its declared bounds `ge=0, le=5`. -/
def ratingOk : Option ℚ → Prop
  | none => True
  | some r => 0 ≤ r ∧ r ≤ 5

instance : DecidablePred ratingOk := fun o => by
  cases o <;> unfold ratingOk <;> infer_instance

/-- An optional budget respects its declared lower bound `ge=0`. -/
def budgetOk : Option ℚ → Prop
  | none => True
  | some b => 0 ≤ b

instance : DecidablePred budgetOk := fun o => by
  cases o <;> unfold budgetOk <;> infer_instance

/-- An optional trip-day count respects its declared lower bound `ge=1`. -/
def tripDaysOk : Option Int → Prop
  | none => True
  | some n => 1 ≤ n

instance : DecidablePred tripDaysOk := fun o => by
  cases o <;> unfold tripDaysOk <;> infer_instance

/-- Submodel `CityVisit`: name plus optional rating.  The pydantic field
constraint `ge=0, le=5` is request-body validation, captured separately by
`CityVisit.valid`; the runtime object can hold any float that bypassed
validation. -/
structure CityVisit where
  name : String
  rating : Option ℚ
deriving DecidableEq, Repr

/-- The declared constraint on `CityVisit.rating`: `ge=0, le=5`. -/
def CityVisit.valid (c : CityVisit) : Prop :=
  ratingOk c.rating

instance : DecidablePred CityVisit.valid := fun c => by
  unfold CityVisit.valid; infer_instance

/-- Submodel `PlaceVisit`: name plus optional rating (`ge=0, le=5`). -/
structure PlaceVisit where
  name : String
  rating : Option ℚ
deriving DecidableEq, Repr

/-- The declared constraint on `PlaceVisit.rating`: `ge=0, le=5`. -/
def PlaceVisit.valid (p : PlaceVisit) : Prop :=
  ratingOk p.rating

instance : DecidablePred PlaceVisit.valid := fun p => by
  unfold PlaceVisit.valid; infer_instance

/-- Model `UserProfile` from `userprofile.py`: identifiers, preferences,
history and timestamps. -/
structure UserProfile where
  id : UUID
  user_id : UUID
  spending_preference : Option Spending
  daily_budget_limit : Option ℚ
  trip_style : Option String
  trip_pace : Option TripPace
  preferred_vibes : List String
  favorite_foods : List String
  favorite_activities : List String
  favorite_seasons : List Season
  min_trip_days : Option Int
  max_trip_days : Option Int
  home_location : Option String
  nearest_airport : Option String
  transport_preferences : List Transport
  accessibility_notes : Option String
  cities_visited : List CityVisit
  places_visited : List PlaceVisit
  cities_saved : List String
  places_saved : List String
  created_at : Time
  updated_at : Time
deriving DecidableEq, Repr

/-- The pydantic field constraints of `UserProfile` that FastAPI enforces when
the profile arrives as a request body: ratings in `[0, 5]`,
`daily_budget_limit ≥ 0`, `min_trip_days ≥ 1`, `max_trip_days ≥ 1`. -/
def UserProfile.valid (p : UserProfile) : Prop :=
  (∀ c ∈ p.cities_visited, c.valid) ∧
  (∀ v ∈ p.places_visited, v.valid) ∧
  budgetOk p.daily_budget_limit ∧
  tripDaysOk p.min_trip_days ∧
  tripDaysOk p.max_trip_days

instance : DecidablePred UserProfile.valid := fun p => by
  unfold UserProfile.valid; infer_instance

/-- The profile `UserProfile(user_id=uid)` as `create_user` builds it: fresh profile id,
every preference at its default (`None` / empty list), both timestamps from
`datetime.utcnow()`. -/
def defaultProfile (pid uid : UUID) (now : Time) : UserProfile where
  id := pid
  user_id := uid
  spending_preference := none
  daily_budget_limit := none
  trip_style := none
  trip_pace := none
  preferred_vibes := []
  favorite_foods := []
  favorite_activities := []
  favorite_seasons := []
  min_trip_days := none
  max_trip_days := none
  home_location := none
  nearest_airport := none
  transport_preferences := []
  accessibility_notes := none
  cities_visited := []
  places_visited := []
  cities_saved := []
  places_saved := []
  created_at := now
  updated_at := now

/-- DTO `UserCreate` (= `UserBase`) from `models/user.py`. -/
structure UserCreate where
  full_name : String
  email : String
  home_city : Option String
  country : Option String
  profile_photo_url : Option String
deriving DecidableEq, Repr

/-- Model `UserRead` from `models/user.py`: the stored user record. -/
structure UserRead where
  full_name : String
  email : String
  home_city : Option String
  country : Option String
  profile_photo_url : Option String
  id : UUID
  created_at : Time
  updated_at : Time
  profile : Option UserProfile
deriving DecidableEq, Repr

/-- The patch payload for the embedded profile.  `UserUpdate.profile` is typed
`Optional[dict]` in the source — its entries are applied with raw `setattr`
and are never validated.  `none` models a key absent from the dict, `some v`
a key present with value `v` (for optional fields the inner `Option` is the
value itself, so an explicit JSON `null` is `some none`). -/
structure ProfileUpdate where
  id : Option UUID := none
  user_id : Option UUID := none
  spending_preference : Option (Option Spending) := none
  daily_budget_limit : Option (Option ℚ) := none
  trip_style : Option (Option String) := none
  trip_pace : Option (Option TripPace) := none
  preferred_vibes : Option (List String) := none
  favorite_foods : Option (List String) := none
  favorite_activities : Option (List String) := none
  favorite_seasons : Option (List Season) := none
  min_trip_days : Option (Option Int) := none
  max_trip_days : Option (Option Int) := none
  home_location : Option (Option String) := none
  nearest_airport : Option (Option String) := none
  transport_preferences : Option (List Transport) := none
  accessibility_notes : Option (Option String) := none
  cities_visited : Option (List CityVisit) := none
  places_visited : Option (List PlaceVisit) := none
  cities_saved : Option (List String) := none
  places_saved : Option (List String) := none
  created_at : Option Time := none
  updated_at : Option Time := none
deriving DecidableEq, Repr

/-- DTO `UserUpdate` from `models/user.py`.  All fields optional; pydantic's
`exclude_unset` distinguishes an omitted field (`none`) from one explicitly
present (`some _`).  For the optional string fields an explicit JSON `null`
is `some none`.  `profile` is `Optional[dict]`: `some none` models
`"profile": null` (present but null), `some (some pu)` a present dict. -/
structure UserUpdate where
  full_name : Option String := none
  email : Option String := none
  home_city : Option (Option String) := none
  country : Option (Option String) := none
  profile_photo_url : Option (Option String) := none
  profile : Option (Option ProfileUpdate) := none
deriving DecidableEq, Repr

/-- Error kinds surfaced by the HTTP layer: 404, 400 duplicate-email conflict,
422 request validation, and a 500 from an uncaught exception inside a
handler. -/
inductive Err
  | notFound
  | conflict
  | validation
  | internalFault
deriving DecidableEq, Repr

/-- The in-memory store `users : Dict[UUID, UserRead]`, as an
insertion-ordered association list. -/
abbrev Store := List (UUID × UserRead)

/-- Dict lookup `users[k]` / `k in users`. -/
def Store.find (s : Store) (k : UUID) : Option UserRead :=
  (s.find? (fun p => p.1 == k)).map (fun p => p.2)

/-- Dict assignment `users[k] = v`: in-place update when present (keeping the
entry's position in insertion order), append otherwise. -/
def Store.set (s : Store) (k : UUID) (v : UserRead) : Store :=
  if s.any (fun p => p.1 == k) then
    s.map (fun p => if p.1 == k then (k, v) else p)
  else
    s ++ [(k, v)]

/-- Dict deletion `del users[k]`. -/
def Store.erase (s : Store) (k : UUID) : Store :=
  s.filter (fun p => p.1 != k)

/-- Handler for `POST /users` (`create_user` in `main.py`): reject a duplicate email with
400, otherwise build a `UserRead` from the payload (fresh `id`, both
timestamps now), attach a default profile bound via `user_id`, and store it. -/
def create_user (inp : UserCreate) (newId pid : UUID) (now : Time) (s : Store) :
    Except Err UserRead × Store :=
  if s.any (fun p => p.2.email == inp.email) then
    (Except.error Err.conflict, s)
  else
    let u : UserRead :=
      { full_name := inp.full_name
        email := inp.email
        home_city := inp.home_city
        country := inp.country
        profile_photo_url := inp.profile_photo_url
        id := newId
        created_at := now
        updated_at := now
        profile := some (defaultProfile pid newId now) }
    (Except.ok u, s.set newId u)

/-- Query-parameter validation for `list_users`: `offset ≥ 0`,
`1 ≤ limit ≤ 100` (FastAPI `Query(ge=0)` / `Query(ge=1, le=100)`). -/
def listParamsOk (offset limit : Int) : Prop :=
  0 ≤ offset ∧ 1 ≤ limit ∧ limit ≤ 100

instance (offset limit : Int) : Decidable (listParamsOk offset limit) := by
  unfold listParamsOk; infer_instance

/-- Python list slice `l[a : b]` for `0 ≤ a ≤ b` (the only shape
`list_users` produces): indices in `[a, min b (length l))`. -/
def pySlice (l : List UserRead) (a b : Int) : List UserRead :=
  (l.drop a.toNat).take (b.toNat - a.toNat)

/-- Handler for `GET /users` (`list_users` in `main.py`): validate `offset`/`limit`,
filter by exact `full_name` then exact `email` when the query parameters are
given, and slice `results[offset : offset + limit]`. -/
def list_users (name email : Option String) (offset limit : Int) (s : Store) :
    Except Err (List UserRead) × Store :=
  if listParamsOk offset limit then
    let results := s.map (fun p => p.2)
    let results := match name with
      | none => results
      | some n => results.filter (fun u => u.full_name == n)
    let results := match email with
      | none => results
      | some e => results.filter (fun u => u.email == e)
    (Except.ok (pySlice results offset (offset + limit)), s)
  else
    (Except.error Err.validation, s)

/-! ### Canonical JSON serialisation (`user.model_dump_json()`)

Pydantic emits compact JSON with the fields in declaration order.  Scalar
renderings are modelled: a `UUID` and a timestamp print as the decimal form of
the `Nat` that models them (the real service prints canonical UUID strings and
ISO-8601 datetimes — both injective renderings of the underlying value), and a
rating prints via `ℚ`'s `toString`.  What the ETag claims need from the
serialiser is that it is a function of the stored record and that the digest
it feeds has a 128-bit codomain; both survive this modelling. -/

def lbrace : String := "\x7b"

def rbrace : String := "\x7d"

def jsonEscapeChar (c : Char) : String :=
  if c = Char.ofNat 34 then ("\\\"")
  else if c = Char.ofNat 92 then ("\\\\")
  else String.singleton c

def jsonStr (s : String) : String :=
  ("\"") ++ String.join (s.data.map jsonEscapeChar) ++ ("\"")

def jsonOpt {α : Type} (f : α → String) : Option α → String
  | none => ("null")
  | some x => f x

def jsonList {α : Type} (f : α → String) (l : List α) : String :=
  ("[") ++ String.intercalate (",") (l.map f) ++ ("]")

def kv (k v : String) : String :=
  jsonStr k ++ (":") ++ v

def Spending.str : Spending → String
  | .low => ("low")
  | .medium => ("medium")
  | .high => ("high")

def TripPace.str : TripPace → String
  | .slow => ("slow")
  | .balanced => ("balanced")
  | .packed => ("packed")

def Season.str : Season → String
  | .spring => ("spring")
  | .summer => ("summer")
  | .fall => ("fall")
  | .winter => ("winter")

def Transport.str : Transport → String
  | .walk => ("walk")
  | .public_transit => ("public_transit")
  | .rideshare => ("rideshare")
  | .car_rental => ("car_rental")

def CityVisit.json (c : CityVisit) : String :=
  lbrace ++ kv ("name") (jsonStr c.name) ++ (",") ++
    kv ("rating") (jsonOpt toString c.rating) ++ rbrace

def PlaceVisit.json (p : PlaceVisit) : String :=
  lbrace ++ kv ("name") (jsonStr p.name) ++ (",") ++
    kv ("rating") (jsonOpt toString p.rating) ++ rbrace

def UserProfile.json (p : UserProfile) : String :=
  lbrace ++ String.intercalate (",")
    [ kv ("id") (toString p.id)
    , kv ("user_id") (toString p.user_id)
    , kv ("spending_preference") (jsonOpt (fun x => jsonStr x.str) p.spending_preference)
    , kv ("daily_budget_limit") (jsonOpt toString p.daily_budget_limit)
    , kv ("trip_style") (jsonOpt jsonStr p.trip_style)
    , kv ("trip_pace") (jsonOpt (fun x => jsonStr x.str) p.trip_pace)
    , kv ("preferred_vibes") (jsonList jsonStr p.preferred_vibes)
    , kv ("favorite_foods") (jsonList jsonStr p.favorite_foods)
    , kv ("favorite_activities") (jsonList jsonStr p.favorite_activities)
    , kv ("favorite_seasons") (jsonList (fun x => jsonStr x.str) p.favorite_seasons)
    , kv ("min_trip_days") (jsonOpt toString p.min_trip_days)
    , kv ("max_trip_days") (jsonOpt toString p.max_trip_days)
    , kv ("home_location") (jsonOpt jsonStr p.home_location)
    , kv ("nearest_airport") (jsonOpt jsonStr p.nearest_airport)
    , kv ("transport_preferences") (jsonList (fun x => jsonStr x.str) p.transport_preferences)
    , kv ("accessibility_notes") (jsonOpt jsonStr p.accessibility_notes)
    , kv ("cities_visited") (jsonList CityVisit.json p.cities_visited)
    , kv ("places_visited") (jsonList PlaceVisit.json p.places_visited)
    , kv ("cities_saved") (jsonList jsonStr p.cities_saved)
    , kv ("places_saved") (jsonList jsonStr p.places_saved)
    , kv ("created_at") (toString p.created_at)
    , kv ("updated_at") (toString p.updated_at)
    ] ++ rbrace

def UserRead.json (u : UserRead) : String :=
  lbrace ++ String.intercalate (",")
    [ kv ("full_name") (jsonStr u.full_name)
    , kv ("email") (jsonStr u.email)
    , kv ("home_city") (jsonOpt jsonStr u.home_city)
    , kv ("country") (jsonOpt jsonStr u.country)
    , kv ("profile_photo_url") (jsonOpt jsonStr u.profile_photo_url)
    , kv ("id") (toString u.id)
    , kv ("created_at") (toString u.created_at)
    , kv ("updated_at") (toString u.updated_at)
    , kv ("profile") (jsonOpt UserProfile.json u.profile)
    ] ++ rbrace

/-- UTF-8 encoding of one scalar value, as byte values. -/
def charUtf8 (c : Char) : List Nat :=
  let n := c.toNat
  if n < 128 then [n]
  else if n < 2048 then [192 + n / 64, 128 + n % 64]
  else if n < 65536 then [224 + n / 4096, 128 + (n / 64) % 64, 128 + n % 64]
  else [240 + n / 262144, 128 + (n / 4096) % 64, 128 + (n / 64) % 64, 128 + n % 64]

/-- Encoding `str.encode("utf-8")`. -/
def strBytes (s : String) : List Nat :=
  (s.data.map charUtf8).flatten

/-! ### MD5 (`hashlib.md5`), over byte lists, words as `Nat` mod `2^32` -/

def md5K : List Nat :=
  [3614090360, 3905402710, 606105819, 3250441966, 4118548399, 1200080426,
   2821735955, 4249261313, 1770035416, 2336552879, 4294925233, 2304563134,
   1804603682, 4254626195, 2792965006, 1236535329, 4129170786, 3225465664,
   643717713, 3921069994, 3593408605, 38016083, 3634488961, 3889429448,
   568446438, 3275163606, 4107603335, 1163531501, 2850285829, 4243563512,
   1735328473, 2368359562, 4294588738, 2272392833, 1839030562, 4259657740,
   2763975236, 1272893353, 4139469664, 3200236656, 681279174, 3936430074,
   3572445317, 76029189, 3654602809, 3873151461, 530742520, 3299628645,
   4096336452, 1126891415, 2878612391, 4237533241, 1700485571, 2399980690,
   4293915773, 2240044497, 1873313359, 4264355552, 2734768916, 1309151649,
   4149444226, 3174756917, 718787259, 3951481745]

def md5S : List Nat :=
  [7, 12, 17, 22, 7, 12, 17, 22, 7, 12, 17, 22, 7, 12, 17, 22,
   5, 9, 14, 20, 5, 9, 14, 20, 5, 9, 14, 20, 5, 9, 14, 20,
   4, 11, 16, 23, 4, 11, 16, 23, 4, 11, 16, 23, 4, 11, 16, 23,
   6, 10, 15, 21, 6, 10, 15, 21, 6, 10, 15, 21, 6, 10, 15, 21]

def add32 (a b : Nat) : Nat := (a + b) % 4294967296

def rotl32 (x n : Nat) : Nat :=
  (((x <<< n) % 4294967296) ||| ((x % 4294967296) >>> (32 - n)))

def md5F (b c d : Nat) : Nat := (b &&& c) ||| ((b ^^^ 4294967295) &&& d)

def md5G (b c d : Nat) : Nat := (d &&& b) ||| ((d ^^^ 4294967295) &&& c)

def md5H (b c d : Nat) : Nat := b ^^^ c ^^^ d

def md5I (b c d : Nat) : Nat := c ^^^ (b ||| (d ^^^ 4294967295))

/-- Little-endian word `j` of a 64-byte chunk. -/
def chunkWord (chunk : List Nat) (j : Nat) : Nat :=
  chunk.getD (4 * j) 0 + 256 * chunk.getD (4 * j + 1) 0 +
    65536 * chunk.getD (4 * j + 2) 0 + 16777216 * chunk.getD (4 * j + 3) 0

def md5Step (chunk : List Nat) (st : Nat × Nat × Nat × Nat) (i : Nat) :
    Nat × Nat × Nat × Nat :=
  let (a, b, c, d) := st
  let fg : Nat × Nat :=
    if i < 16 then (md5F b c d, i)
    else if i < 32 then (md5G b c d, (5 * i + 1) % 16)
    else if i < 48 then (md5H b c d, (3 * i + 5) % 16)
    else (md5I b c d, (7 * i) % 16)
  let f := (fg.1 + a + md5K.getD i 0 + chunkWord chunk fg.2) % 4294967296
  (d, add32 b (rotl32 f (md5S.getD i 0)), b, c)

def md5Chunk (st : Nat × Nat × Nat × Nat) (chunk : List Nat) :
    Nat × Nat × Nat × Nat :=
  let r := (List.range 64).foldl (md5Step chunk) st
  (add32 st.1 r.1, add32 st.2.1 r.2.1, add32 st.2.2.1 r.2.2.1, add32 st.2.2.2 r.2.2.2)

/-- Split a byte sequence into successive 64-byte chunks. -/
def chunked : List Nat → List (List Nat)
  | [] => []
  | h :: t => List.take 64 (h :: t) :: chunked (List.drop 64 (h :: t))
termination_by msg => msg.length
decreasing_by simp [List.length_drop]; omega

/-- Sequentially compress every chunk into the running state. -/
def md5Chunks (st : Nat × Nat × Nat × Nat) (msg : List Nat) : Nat × Nat × Nat × Nat :=
  (chunked msg).foldl md5Chunk st

/-- Little-endian bytes of `n`, `count` bytes long. -/
def leBytes (n count : Nat) : List Nat :=
  (List.range count).map (fun i => (n >>> (8 * i)) % 256)

/-- MD5 padding: `0x80`, zeros to 56 mod 64, then the 64-bit little-endian
bit length. -/
def md5Pad (msg : List Nat) : List Nat :=
  msg ++ [128] ++ List.replicate ((119 - msg.length % 64) % 64) 0 ++
    leBytes (8 * msg.length) 8

/-- The four 32-bit state words of the MD5 digest of a byte sequence. -/
def md5Words (msg : List Nat) : Nat × Nat × Nat × Nat :=
  md5Chunks (1732584193, 4023233417, 2562383102, 271733878) (md5Pad msg)

def hexDigit (n : Nat) : Char :=
  if n < 10 then Char.ofNat (48 + n) else Char.ofNat (87 + n)

def byteHex (b : Nat) : String :=
  String.mk [hexDigit (b / 16 % 16), hexDigit (b % 16)]

def wordHexLE (w : Nat) : String :=
  String.join ((leBytes w 4).map byteHex)

/-- Digest `hashlib.md5(x).hexdigest()`. -/
def md5Hex (msg : List Nat) : String :=
  wordHexLE (md5Words msg).1 ++ wordHexLE (md5Words msg).2.1 ++
    wordHexLE (md5Words msg).2.2.1 ++ wordHexLE (md5Words msg).2.2.2

/-- The ETag computed by `get_user`:
`hashlib.md5(user.model_dump_json().encode("utf-8")).hexdigest()`. -/
def etagOf (u : UserRead) : String :=
  md5Hex (strBytes u.json)

/-- Handler for `GET /users/[user_id]` (`get_user` in `main.py`): 404 when absent,
otherwise the stored record plus its ETag header. -/
def get_user (uid : UUID) (s : Store) : Except Err (UserRead × String) × Store :=
  match s.find uid with
  | none => (Except.error Err.notFound, s)
  | some u => (Except.ok (u, etagOf u), s)

/-- Handler for `DELETE /users/[user_id]` (`delete_user` in `main.py`). -/
def delete_user (uid : UUID) (s : Store) : Except Err Unit × Store :=
  match s.find uid with
  | none => (Except.error Err.notFound, s)
  | some _ => (Except.ok (), s.erase uid)

/-- Handler for `PUT /users/[user_id]` (`replace_user` in `main.py`): 404 when absent;
otherwise build a fresh `UserRead` from the payload with `id := user_id`,
the existing profile carried over, `updated_at := utcnow()` — and, because
`created_at` is not passed, its `default_factory` fires and stamps
`created_at` with `utcnow()` as well. -/
def replace_user (uid : UUID) (inp : UserCreate) (now : Time) (s : Store) :
    Except Err UserRead × Store :=
  match s.find uid with
  | none => (Except.error Err.notFound, s)
  | some old =>
    let u : UserRead :=
      { full_name := inp.full_name
        email := inp.email
        home_city := inp.home_city
        country := inp.country
        profile_photo_url := inp.profile_photo_url
        id := uid
        created_at := now
        updated_at := now
        profile := old.profile }
    (Except.ok u, s.set uid u)

/-- The `setattr` loop of `update_user` over the non-profile entries of
`update.model_dump(exclude_unset=True)`: present keys overwrite, absent keys
leave the field alone. -/
def applyNonProfile (upd : UserUpdate) (u : UserRead) : UserRead :=
  { u with
    full_name := upd.full_name.getD u.full_name
    email := upd.email.getD u.email
    home_city := upd.home_city.getD u.home_city
    country := upd.country.getD u.country
    profile_photo_url := upd.profile_photo_url.getD u.profile_photo_url }

/-- The `setattr` loop of `update_user` over the keys of the raw profile
dict: each present key overwrites that attribute of the stored profile,
absent keys are untouched. -/
def applyProfileUpdate (pu : ProfileUpdate) (p : UserProfile) : UserProfile where
  id := pu.id.getD p.id
  user_id := pu.user_id.getD p.user_id
  spending_preference := pu.spending_preference.getD p.spending_preference
  daily_budget_limit := pu.daily_budget_limit.getD p.daily_budget_limit
  trip_style := pu.trip_style.getD p.trip_style
  trip_pace := pu.trip_pace.getD p.trip_pace
  preferred_vibes := pu.preferred_vibes.getD p.preferred_vibes
  favorite_foods := pu.favorite_foods.getD p.favorite_foods
  favorite_activities := pu.favorite_activities.getD p.favorite_activities
  favorite_seasons := pu.favorite_seasons.getD p.favorite_seasons
  min_trip_days := pu.min_trip_days.getD p.min_trip_days
  max_trip_days := pu.max_trip_days.getD p.max_trip_days
  home_location := pu.home_location.getD p.home_location
  nearest_airport := pu.nearest_airport.getD p.nearest_airport
  transport_preferences := pu.transport_preferences.getD p.transport_preferences
  accessibility_notes := pu.accessibility_notes.getD p.accessibility_notes
  cities_visited := pu.cities_visited.getD p.cities_visited
  places_visited := pu.places_visited.getD p.places_visited
  cities_saved := pu.cities_saved.getD p.cities_saved
  places_saved := pu.places_saved.getD p.places_saved
  created_at := pu.created_at.getD p.created_at
  updated_at := pu.updated_at.getD p.updated_at

/-- Handler for `PATCH /users/[user_id]` (`update_user` in `main.py`): 404 when absent;
set every present non-profile field; then, when `"profile"` is present and
non-null, merge the dict into the stored profile key by key.  When the stored
profile is `None` and a profile dict arrives, the Python `setattr` on `None`
raises `AttributeError` (a 500) — by then the non-profile `setattr` loop has
already mutated the stored object in place, so that partial mutation
persists and `updated_at` is never stamped.  On success `updated_at := now`. -/
def update_user (uid : UUID) (upd : UserUpdate) (now : Time) (s : Store) :
    Except Err UserRead × Store :=
  match s.find uid with
  | none => (Except.error Err.notFound, s)
  | some stored =>
    let s1 := applyNonProfile upd stored
    match upd.profile with
    | some (some pu) =>
      match s1.profile with
      | some p =>
        let u2 := { s1 with profile := some (applyProfileUpdate pu p), updated_at := now }
        (Except.ok u2, s.set uid u2)
      | none => (Except.error Err.internalFault, s.set uid s1)
    | _ =>
      let u2 := { s1 with updated_at := now }
      (Except.ok u2, s.set uid u2)

/-- Handler for `GET /users/[user_id]/profile` (`get_user_profile` in `main.py`). -/
def get_user_profile (uid : UUID) (s : Store) : Except Err UserProfile × Store :=
  match s.find uid with
  | none => (Except.error Err.notFound, s)
  | some u =>
    match u.profile with
    | none => (Except.error Err.notFound, s)
    | some p => (Except.ok p, s)

/-- Handler for `PUT /users/[user_id]/profile` (`update_user_profile` in `main.py`): the
body is parsed as a full `UserProfile`, so FastAPI rejects out-of-range
fields before the handler runs; then the stored profile is wholesale
replaced (with whatever `user_id` the client supplied) and the user's
`updated_at` stamped. -/
def update_user_profile (uid : UUID) (p : UserProfile) (now : Time) (s : Store) :
    Except Err UserProfile × Store :=
  if ¬ p.valid then (Except.error Err.validation, s)
  else
    match s.find uid with
    | none => (Except.error Err.notFound, s)
    | some u =>
      (Except.ok p, s.set uid { u with profile := some p, updated_at := now })

/-! ### Operation sequences over the store

The state-changing endpoints, as events: each carries the request payload and
the identifiers/instant the server observes while handling it.  Read-only
endpoints (`GET`) leave the store untouched and are omitted from the event
type. -/

inductive Op
  | createU (inp : UserCreate) (nid pid : UUID) (now : Time)
  | replaceU (uid : UUID) (inp : UserCreate) (now : Time)
  | patchU (uid : UUID) (upd : UserUpdate) (now : Time)
  | deleteU (uid : UUID)
  | putProfileU (uid : UUID) (p : UserProfile) (now : Time)
deriving Repr

/-- The store left behind by one request. -/
def Op.apply (s : Store) : Op → Store
  | .createU inp nid pid now => (create_user inp nid pid now s).2
  | .replaceU uid inp now => (replace_user uid inp now s).2
  | .patchU uid upd now => (update_user uid upd now s).2
  | .deleteU uid => (delete_user uid s).2
  | .putProfileU uid p now => (update_user_profile uid p now s).2

/-- The store left behind by a request sequence. -/
def applyOps (s : Store) (ops : List Op) : Store :=
  ops.foldl Op.apply s

/-- No two stored users share an email (case-sensitive exact comparison). -/
def emailUnique (s : Store) : Prop :=
  (s.map (fun p => p.2.email)).Nodup

instance : DecidablePred emailUnique := fun s => by
  unfold emailUnique; infer_instance

/-- The store keys are pairwise distinct (automatic for a Python dict). -/
def keysNodup (s : Store) : Prop :=
  (s.map Prod.fst).Nodup

/-- Every entry is stored under its own `id`. -/
def idMatch (s : Store) : Prop :=
  ∀ p ∈ s, p.2.id = p.1

/-- Every stored user carries exactly one profile and that profile points back
at the user: `profile` is not `None` and `profile.user_id = id` (stated as
`profile.map user_id = some id`, which packs both conditions). -/
def profileOk (s : Store) : Prop :=
  ∀ p ∈ s, p.2.profile.map UserProfile.user_id = some p.2.id

instance : DecidablePred profileOk := fun s => by
  unfold profileOk
  exact List.decidableBAll _ s

/-- Every stored user carries a profile (`profile` is not `None`). -/
def profileSome (s : Store) : Prop :=
  ∀ p ∈ s, p.2.profile.isSome

instance : DecidablePred profileSome := fun s => by
  unfold profileSome
  exact List.decidableBAll _ s

/-- Requests that never write an email: everything except `PUT /users/{id}`
(which overwrites all fields unchecked) and a `PATCH` whose payload sets
`email`. -/
def Op.emailSafe : Op → Prop
  | .replaceU _ _ _ => False
  | .patchU _ upd _ => upd.email = none
  | _ => True

/-- Requests that never write a profile back-reference: everything except a
`PUT /users/{id}/profile` whose body carries a foreign `user_id` and a
`PATCH` whose profile dict contains the `user_id` (or `id`) key. -/
def Op.profileSafe : Op → Prop
  | .putProfileU uid p _ => p.user_id = uid
  | .patchU _ upd _ =>
      ∀ pu, upd.profile = some (some pu) → pu.user_id = none
  | _ => True

/-- Modelled from the spec: the `list` filter predicate, "users matching all
provided filters (exact-match equality on full_name and email)". -/
def matchesFilters (name email : Option String) (u : UserRead) : Bool :=
  (name.all (fun n => u.full_name == n)) && (email.all (fun e => u.email == e))

/-- Modelled from the spec: "the ordered sequence of users matching all
provided filters, ordered by insertion order" — one filter pass over the
stored sequence. -/
def listMatching (name email : Option String) (s : Store) : List UserRead :=
  (s.map (fun p => p.2)).filter (matchesFilters name email)

/-! ### Concrete sample values used by witnesses and counterexamples -/

def sampleJaneCreate : UserCreate where
  full_name := "Jane Doe"
  email := "jane@x.com"
  home_city := some ("New York")
  country := some ("USA")
  profile_photo_url := none

def sampleBobCreate : UserCreate where
  full_name := "Bob Roe"
  email := "bob@y.com"
  home_city := none
  country := none
  profile_photo_url := none

/-- Payload `sampleBobCreate` with Jane's email: a conflicting write. -/
def sampleBobAsJane : UserCreate :=
  { sampleBobCreate with email := sampleJaneCreate.email }

/-- The record `create_user sampleJaneCreate 1 11 5 []` stores and returns. -/
def sampleJaneRead : UserRead where
  full_name := sampleJaneCreate.full_name
  email := sampleJaneCreate.email
  home_city := sampleJaneCreate.home_city
  country := sampleJaneCreate.country
  profile_photo_url := sampleJaneCreate.profile_photo_url
  id := 1
  created_at := 5
  updated_at := 5
  profile := some (defaultProfile 11 1 5)

/-- The one-user store Jane's creation leaves behind. -/
def sampleStore1 : Store :=
  (create_user sampleJaneCreate 1 11 5 []).2

/-- A profile body carrying a foreign `user_id` (99 instead of 1); every
field-level constraint holds, so request validation accepts it. -/
def strayProfile : UserProfile :=
  defaultProfile 50 99 2

/-- A patch payload whose only content is `profile.trip_pace`. -/
def pacePatch : UserUpdate :=
  { profile := some (some { trip_pace := some (some TripPace.packed) }) }

/-- A patch payload carrying an out-of-range rating (`5.5`) inside the raw
profile dict. -/
def badRatingPatch : UserUpdate :=
  { profile := some (some { cities_visited := some [{ name := "Tokyo", rating := some (11 / 2 : ℚ) }] }) }

/-- A user family that varies only `created_at`: pairwise distinct records
feeding the digest pigeonhole argument. -/
def stampedUser (n : Nat) : UserRead :=
  { sampleJaneRead with created_at := n }

/-- A profile body that is shaped correctly but carries a rating of `5.5`:
request validation must reject it wherever validation runs. -/
def badProfileBody : UserProfile :=
  { defaultProfile 50 1 2 with
      cities_visited := [{ name := "Tokyo", rating := some (11 / 2 : ℚ) }] }

/-- Jane after `PATCH` with `pacePatch` at instant 6. -/
def pacedJane : UserRead :=
  { sampleJaneRead with
      profile := some { defaultProfile 11 1 5 with trip_pace := some TripPace.packed }
      updated_at := 6 }

/-- The store after Jane's creation and the `pacePatch` at instant 6. -/
def sampleStore2 : Store :=
  Store.set sampleStore1 1 pacedJane

/-! ### Helper lemmas about the store -/

theorem getD_idem {α : Type} (o : Option α) (x : α) : o.getD (o.getD x) = o.getD x := by
  cases o <;> rfl

theorem Store.find_cons (p : UUID × UserRead) (t : Store) (k : UUID) :
    Store.find (p :: t) k = if p.1 = k then some p.2 else Store.find t k := by
  by_cases h : p.1 = k <;> simp [Store.find, List.find?_cons, h]

theorem Store.set_cons_ne (p : UUID × UserRead) (t : Store) (k : UUID) (v : UserRead)
    (h : p.1 ≠ k) : Store.set (p :: t) k v = p :: Store.set t k v := by
  unfold Store.set
  rw [List.any_cons]
  simp only [beq_iff_eq, h, false_or]
  by_cases ht : t.any (fun q => q.1 == k) = true
  · simp [ht, h]
  · simp only [Bool.not_eq_true] at ht
    simp [ht, h]

theorem Store.find_set_self (s : Store) (k : UUID) (v : UserRead) :
    Store.find (Store.set s k v) k = some v := by
  induction s with
  | nil => simp [Store.set, Store.find]
  | cons p t ih =>
    by_cases h : p.1 = k
    · have hany : (p :: t).any (fun q => q.1 == k) = true := by
        simp [List.any_cons, h]
      unfold Store.set
      rw [if_pos hany]
      simp only [List.map_cons]
      rw [show (if p.1 == k then (k, v) else p) = (k, v) by simp [h]]
      simp [Store.find_cons]
    · rw [Store.set_cons_ne p t k v h, Store.find_cons]
      simp [h, ih]

theorem Store.mem_set (s : Store) (k : UUID) (v : UserRead) (q : UUID × UserRead)
    (h : q ∈ Store.set s k v) : q = (k, v) ∨ q ∈ s := by
  unfold Store.set at h
  split at h
  · obtain ⟨p, hp, hq⟩ := List.mem_map.1 h
    by_cases hpk : p.1 == k
    · left; rw [if_pos hpk] at hq; exact hq.symm
    · right; rw [if_neg (by simp_all)] at hq; exact hq ▸ hp
  · rcases List.mem_append.1 h with h1 | h1
    · right; exact h1
    · left; simpa using h1

theorem Store.find_mem (s : Store) (k : UUID) (u : UserRead)
    (h : Store.find s k = some u) : (k, u) ∈ s := by
  unfold Store.find at h
  obtain ⟨q, hq, hq2⟩ := Option.map_eq_some'.1 h
  have hmem := List.mem_of_find?_eq_some hq
  have hkey := List.find?_some hq
  simp only [beq_iff_eq] at hkey
  subst hkey
  rw [← hq2]
  exact hmem

/-! ### C1 and C2 -/

/-- C1: for every valid `UserCreate` input, `create` then `get` by the
returned id yields that user back; the client-supplied fields equal the
input, `created_at = updated_at`, and the embedded profile satisfies
`profile.user_id = user.id`. -/
theorem create_then_get_roundtrip
    (inp : UserCreate) (nid pid : UUID) (now : Time) (s : Store)
    (u : UserRead) (s' : Store)
    (h : create_user inp nid pid now s = (Except.ok u, s')) :
    (get_user nid s').1 = Except.ok (u, etagOf u) ∧
    u.full_name = inp.full_name ∧ u.email = inp.email ∧
    u.home_city = inp.home_city ∧ u.country = inp.country ∧
    u.profile_photo_url = inp.profile_photo_url ∧
    u.created_at = u.updated_at ∧
    ∃ prof, u.profile = some prof ∧ prof.user_id = u.id := by
  unfold create_user at h
  split at h
  · exact absurd h (by simp)
  · obtain ⟨hu, hs⟩ := Prod.mk.injEq .. ▸ h
    injection hu with hu
    subst hu hs
    refine ⟨?_, rfl, rfl, rfl, rfl, rfl, rfl, defaultProfile pid nid now, rfl, rfl⟩
    unfold get_user
    rw [Store.find_set_self]

/-- C1 witness: Jane is created at instant 5 and read back. -/
theorem create_then_get_roundtrip_witness :
    (get_user 1 sampleStore1).1 = Except.ok (sampleJaneRead, etagOf sampleJaneRead) ∧
    sampleJaneRead.full_name = sampleJaneCreate.full_name ∧
    sampleJaneRead.email = sampleJaneCreate.email ∧
    sampleJaneRead.home_city = sampleJaneCreate.home_city ∧
    sampleJaneRead.country = sampleJaneCreate.country ∧
    sampleJaneRead.profile_photo_url = sampleJaneCreate.profile_photo_url ∧
    sampleJaneRead.created_at = sampleJaneRead.updated_at ∧
    ∃ prof, sampleJaneRead.profile = some prof ∧ prof.user_id = sampleJaneRead.id :=
  create_then_get_roundtrip sampleJaneCreate 1 11 5 [] sampleJaneRead sampleStore1 rfl

/-- C2: creating a user whose email equals a stored user's email fails with
the 400 conflict and leaves the store exactly as it was, whatever the other
fields of the payload and the fresh identifiers are. -/
theorem create_duplicate_email_conflict
    (s : Store) (k : UUID) (stored : UserRead) (inp : UserCreate)
    (nid pid : UUID) (now : Time)
    (hk : Store.find s k = some stored) (he : inp.email = stored.email) :
    create_user inp nid pid now s = (Except.error Err.conflict, s) := by
  unfold create_user
  rw [if_pos]
  exact List.any_eq_true.2 ⟨(k, stored), Store.find_mem s k stored hk, by simp [he]⟩

/-- C2 witness: a second create reusing Jane's email is rejected and the
store is unchanged. -/
theorem create_duplicate_email_conflict_witness :
    create_user sampleBobAsJane 2 12 6 sampleStore1 =
      (Except.error Err.conflict, sampleStore1) :=
  create_duplicate_email_conflict sampleStore1 1 sampleJaneRead sampleBobAsJane 2 12 6 rfl rfl

/-! ### C5: replace semantics -/

/-- C5 evaluation at the failing input: Jane is created at instant 5
(`created_at = 5`), then `PUT /users/1` at instant 7 succeeds — it keeps the
id, preserves the existing profile, stamps `updated_at := 7`, but also
resets `created_at` to 7, because `replace_user` rebuilds the `UserRead`
without passing `created_at`, so its `default_factory` fires again.  The
claim (and the field's own description, "Account creation timestamp") says
`created_at` is immutable after creation. -/
theorem replace_resets_created_at :
    (Store.find sampleStore1 1).map UserRead.created_at = some 5 ∧
    replace_user 1 sampleBobCreate 7 sampleStore1 =
      (Except.ok
        { full_name := sampleBobCreate.full_name
          email := sampleBobCreate.email
          home_city := sampleBobCreate.home_city
          country := sampleBobCreate.country
          profile_photo_url := sampleBobCreate.profile_photo_url
          id := 1
          created_at := 7
          updated_at := 7
          profile := sampleJaneRead.profile },
       Store.set sampleStore1 1
        { full_name := sampleBobCreate.full_name
          email := sampleBobCreate.email
          home_city := sampleBobCreate.home_city
          country := sampleBobCreate.country
          profile_photo_url := sampleBobCreate.profile_photo_url
          id := 1
          created_at := 7
          updated_at := 7
          profile := sampleJaneRead.profile }) :=
  ⟨rfl, rfl⟩

/-! ### C7: out-of-range rating through PATCH -/

/-- C7 evaluation at the failing input: `PUT /users/1/profile` with a body
whose `cities_visited` entry carries rating `5.5` is rejected by request
validation with the store untouched — but `PATCH /users/1` carrying the same
entry inside the raw `profile` dict is accepted, mutates the store, and the
stored profile now violates the declared `[0, 5]` bound. -/
theorem patch_stores_out_of_range_rating :
    update_user_profile 1 badProfileBody 7 sampleStore1 =
      (Except.error Err.validation, sampleStore1) ∧
    update_user 1 badRatingPatch 7 sampleStore1 =
      (Except.ok
        { sampleJaneRead with
            profile := some { defaultProfile 11 1 5 with
              cities_visited := [{ name := "Tokyo", rating := some (11 / 2 : ℚ) }] }
            updated_at := 7 },
       Store.set sampleStore1 1
        { sampleJaneRead with
            profile := some { defaultProfile 11 1 5 with
              cities_visited := [{ name := "Tokyo", rating := some (11 / 2 : ℚ) }] }
            updated_at := 7 }) ∧
    ¬ UserProfile.valid { defaultProfile 11 1 5 with
        cities_visited := [{ name := "Tokyo", rating := some (11 / 2 : ℚ) }] } := by
  have hbad : ¬ ((11 : ℚ) / 2 ≤ 5) := by norm_num
  refine ⟨?_, rfl, ?_⟩
  · unfold update_user_profile
    rw [if_pos]
    intro hv
    have h5 := hv.1 { name := "Tokyo", rating := some (11 / 2 : ℚ) } (by
      unfold badProfileBody
      simp)
    exact hbad h5.2
  · intro hv
    have h5 := hv.1 { name := "Tokyo", rating := some (11 / 2 : ℚ) } (by simp)
    exact hbad h5.2

/-! ### C6: merge semantics of PATCH -/

/-- C6: merge-update on a stored user with a profile.  Every non-profile
field comes out as `payload value if present, stored value if omitted`
(`Option.getD`), `id` and `created_at` survive, `updated_at` is stamped, and
every profile field likewise merges key-by-key — so a partial whose only
content is `profile.trip_pace` changes exactly that profile field. -/
theorem patch_profile_merge_semantics
    (s : Store) (uid : UUID) (u : UserRead) (p : UserProfile)
    (pu : ProfileUpdate) (upd : UserUpdate) (now : Time)
    (hu : Store.find s uid = some u) (hp : u.profile = some p)
    (hupd : upd.profile = some (some pu)) :
    ∃ u', update_user uid upd now s = (Except.ok u', Store.set s uid u') ∧
      u'.full_name = upd.full_name.getD u.full_name ∧
      u'.email = upd.email.getD u.email ∧
      u'.home_city = upd.home_city.getD u.home_city ∧
      u'.country = upd.country.getD u.country ∧
      u'.profile_photo_url = upd.profile_photo_url.getD u.profile_photo_url ∧
      u'.id = u.id ∧ u'.created_at = u.created_at ∧ u'.updated_at = now ∧
      ∃ p', u'.profile = some p' ∧
        p'.id = pu.id.getD p.id ∧
        p'.user_id = pu.user_id.getD p.user_id ∧
        p'.spending_preference = pu.spending_preference.getD p.spending_preference ∧
        p'.daily_budget_limit = pu.daily_budget_limit.getD p.daily_budget_limit ∧
        p'.trip_style = pu.trip_style.getD p.trip_style ∧
        p'.trip_pace = pu.trip_pace.getD p.trip_pace ∧
        p'.preferred_vibes = pu.preferred_vibes.getD p.preferred_vibes ∧
        p'.favorite_foods = pu.favorite_foods.getD p.favorite_foods ∧
        p'.favorite_activities = pu.favorite_activities.getD p.favorite_activities ∧
        p'.favorite_seasons = pu.favorite_seasons.getD p.favorite_seasons ∧
        p'.min_trip_days = pu.min_trip_days.getD p.min_trip_days ∧
        p'.max_trip_days = pu.max_trip_days.getD p.max_trip_days ∧
        p'.home_location = pu.home_location.getD p.home_location ∧
        p'.nearest_airport = pu.nearest_airport.getD p.nearest_airport ∧
        p'.transport_preferences = pu.transport_preferences.getD p.transport_preferences ∧
        p'.accessibility_notes = pu.accessibility_notes.getD p.accessibility_notes ∧
        p'.cities_visited = pu.cities_visited.getD p.cities_visited ∧
        p'.places_visited = pu.places_visited.getD p.places_visited ∧
        p'.cities_saved = pu.cities_saved.getD p.cities_saved ∧
        p'.places_saved = pu.places_saved.getD p.places_saved ∧
        p'.created_at = pu.created_at.getD p.created_at ∧
        p'.updated_at = pu.updated_at.getD p.updated_at := by
  unfold update_user
  rw [hu, hupd]
  simp only [applyNonProfile, hp]
  exact ⟨_, rfl, rfl, rfl, rfl, rfl, rfl, rfl, rfl, rfl,
    applyProfileUpdate pu p, rfl, rfl, rfl, rfl, rfl, rfl, rfl, rfl, rfl, rfl, rfl,
    rfl, rfl, rfl, rfl, rfl, rfl, rfl, rfl, rfl, rfl, rfl, rfl⟩

/-- C6 witness: the `trip_pace`-only patch on freshly created Jane. -/
theorem patch_profile_merge_semantics_witness :
    ∃ u', update_user 1 pacePatch 6 sampleStore1 = (Except.ok u', Store.set sampleStore1 1 u') ∧
      u'.full_name = pacePatch.full_name.getD sampleJaneRead.full_name ∧
      u'.email = pacePatch.email.getD sampleJaneRead.email ∧
      u'.home_city = pacePatch.home_city.getD sampleJaneRead.home_city ∧
      u'.country = pacePatch.country.getD sampleJaneRead.country ∧
      u'.profile_photo_url = pacePatch.profile_photo_url.getD sampleJaneRead.profile_photo_url ∧
      u'.id = sampleJaneRead.id ∧ u'.created_at = sampleJaneRead.created_at ∧
      u'.updated_at = 6 ∧
      ∃ p', u'.profile = some p' ∧
        p'.id = (defaultProfile 11 1 5).id ∧
        p'.user_id = (defaultProfile 11 1 5).user_id ∧
        p'.spending_preference = (defaultProfile 11 1 5).spending_preference ∧
        p'.daily_budget_limit = (defaultProfile 11 1 5).daily_budget_limit ∧
        p'.trip_style = (defaultProfile 11 1 5).trip_style ∧
        p'.trip_pace = some TripPace.packed ∧
        p'.preferred_vibes = (defaultProfile 11 1 5).preferred_vibes ∧
        p'.favorite_foods = (defaultProfile 11 1 5).favorite_foods ∧
        p'.favorite_activities = (defaultProfile 11 1 5).favorite_activities ∧
        p'.favorite_seasons = (defaultProfile 11 1 5).favorite_seasons ∧
        p'.min_trip_days = (defaultProfile 11 1 5).min_trip_days ∧
        p'.max_trip_days = (defaultProfile 11 1 5).max_trip_days ∧
        p'.home_location = (defaultProfile 11 1 5).home_location ∧
        p'.nearest_airport = (defaultProfile 11 1 5).nearest_airport ∧
        p'.transport_preferences = (defaultProfile 11 1 5).transport_preferences ∧
        p'.accessibility_notes = (defaultProfile 11 1 5).accessibility_notes ∧
        p'.cities_visited = (defaultProfile 11 1 5).cities_visited ∧
        p'.places_visited = (defaultProfile 11 1 5).places_visited ∧
        p'.cities_saved = (defaultProfile 11 1 5).cities_saved ∧
        p'.places_saved = (defaultProfile 11 1 5).places_saved ∧
        p'.created_at = (defaultProfile 11 1 5).created_at ∧
        p'.updated_at = (defaultProfile 11 1 5).updated_at := by
  have h := patch_profile_merge_semantics sampleStore1 1 sampleJaneRead
    (defaultProfile 11 1 5) { trip_pace := some (some TripPace.packed) } pacePatch 6
    rfl rfl rfl
  exact h

/-! ### C9: idempotence of PATCH -/

theorem applyProfileUpdate_idem (pu : ProfileUpdate) (p : UserProfile) :
    applyProfileUpdate pu (applyProfileUpdate pu p) = applyProfileUpdate pu p := by
  simp only [applyProfileUpdate, getD_idem]

theorem applyNonProfile_idem (upd : UserUpdate) (u : UserRead) :
    applyNonProfile upd (applyNonProfile upd u) = applyNonProfile upd u := by
  simp only [applyNonProfile, getD_idem]

/-- C9: applying a fixed merge-update twice in a row yields the same stored
content as applying it once; only `updated_at` moves, to the second
request's instant. -/
theorem patch_idempotent
    (s : Store) (uid : UUID) (upd : UserUpdate) (now1 now2 : Time)
    (u1 : UserRead) (s1 : Store)
    (h : update_user uid upd now1 s = (Except.ok u1, s1)) :
    update_user uid upd now2 s1 =
      (Except.ok { u1 with updated_at := now2 },
       Store.set s1 uid { u1 with updated_at := now2 }) := by
  unfold update_user at h ⊢
  cases hfind : Store.find s uid with
  | none => rw [hfind] at h; exact absurd h (by simp)
  | some stored =>
    rw [hfind] at h
    cases hup : upd.profile with
    | none =>
      rw [hup] at h
      obtain ⟨hu, hs⟩ := Prod.mk.injEq .. ▸ h
      injection hu with hu
      subst hu hs
      rw [Store.find_set_self]
      simp [applyNonProfile, getD_idem]
    | some opu =>
      cases opu with
      | none =>
        rw [hup] at h
        obtain ⟨hu, hs⟩ := Prod.mk.injEq .. ▸ h
        injection hu with hu
        subst hu hs
        rw [Store.find_set_self]
        simp [applyNonProfile, getD_idem]
      | some pu =>
        rw [hup] at h
        cases hsp : stored.profile with
        | none =>
          simp only [applyNonProfile, hsp] at h
          exact absurd h (by simp)
        | some p =>
          simp only [applyNonProfile, hsp] at h
          obtain ⟨hu, hs⟩ := Prod.mk.injEq .. ▸ h
          injection hu with hu
          subst hu hs
          rw [Store.find_set_self]
          simp [applyNonProfile, applyProfileUpdate, getD_idem]

/-- C9 witness: the `trip_pace` patch applied at instants 6 and then 7. -/
theorem patch_idempotent_witness :
    update_user 1 pacePatch 7 sampleStore2 =
      (Except.ok { pacedJane with updated_at := 7 },
       Store.set sampleStore2 1 { pacedJane with updated_at := 7 }) :=
  patch_idempotent sampleStore1 1 pacePatch 6 7 pacedJane sampleStore2 rfl

/-! ### C8: pagination and filtering -/

/-- C8: with `offset ≥ 0` and `1 ≤ limit ≤ 100`, `list_users` returns the
insertion-ordered users matching all provided exact-match filters, sliced to
the index range `[offset, offset + limit)`; the result never exceeds `limit`
elements, an offset at or past the number of matches yields `[]` rather than
an error, and out-of-range `offset`/`limit` fail with the validation error,
store untouched either way. -/
theorem list_users_spec (name email : Option String) (off lim : Int) (s : Store) :
    (listParamsOk off lim →
      (list_users name email off lim s).1 =
        Except.ok (((listMatching name email s).drop off.toNat).take lim.toNat) ∧
      (list_users name email off lim s).2 = s ∧
      (((listMatching name email s).drop off.toNat).take lim.toNat).length ≤ lim.toNat ∧
      ((listMatching name email s).length ≤ off.toNat →
        ((listMatching name email s).drop off.toNat).take lim.toNat = [])) ∧
    (¬ listParamsOk off lim →
      list_users name email off lim s = (Except.error Err.validation, s)) := by
  constructor
  · intro h
    obtain ⟨h0, h1, h100⟩ := h
    have harith : (off + lim).toNat - off.toNat = lim.toNat := by omega
    have hok : list_users name email off lim s =
        (Except.ok (((listMatching name email s).drop off.toNat).take lim.toNat), s) := by
      unfold list_users pySlice
      rw [if_pos ⟨h0, h1, h100⟩, harith]
      unfold listMatching
      cases name with
      | none =>
        cases email with
        | none =>
          have hm : matchesFilters none none = fun _ => true := by
            funext u
            simp [matchesFilters]
          simp [hm]
        | some e =>
          have hm : matchesFilters none (some e) = fun u => u.email == e := by
            funext u
            simp [matchesFilters]
          simp [hm]
      | some n =>
        cases email with
        | none =>
          have hm : matchesFilters (some n) none = fun u => u.full_name == n := by
            funext u
            simp [matchesFilters]
          simp [hm]
        | some e =>
          have hm : matchesFilters (some n) (some e) =
              fun u => u.full_name == n && u.email == e := by
            funext u
            simp [matchesFilters]
          simp only [hm]
          have hcomm : (fun (a : UserRead) => a.email == e && a.full_name == n) =
              fun a => a.full_name == n && a.email == e := by
            funext a
            exact Bool.and_comm _ _
          simp [List.filter_filter, hcomm]
    refine ⟨by rw [hok], by rw [hok], ?_, ?_⟩
    · rw [List.length_take]
      exact min_le_left _ _
    · intro hbeyond
      rw [List.drop_eq_nil_of_le hbeyond, List.take_nil]
  · intro hbad
    unfold list_users
    rw [if_neg hbad]

/-- C8 witness: on the one-user store, `offset 0, limit 10` returns the slice,
`offset 5` is past the single match and yields `[]`, and `limit 200` is
rejected. -/
theorem list_users_spec_witness :
    ((list_users none none 0 10 sampleStore1).1 =
      Except.ok (((listMatching none none sampleStore1).drop (0 : Int).toNat).take (10 : Int).toNat)) ∧
    (((listMatching none none sampleStore1).drop (5 : Int).toNat).take (10 : Int).toNat = []) ∧
    (list_users none none 0 200 sampleStore1 = (Except.error Err.validation, sampleStore1)) :=
  ⟨((list_users_spec none none 0 10 sampleStore1).1 (by decide)).1,
   ((list_users_spec none none 5 10 sampleStore1).1 (by decide)).2.2.2 (by decide),
   (list_users_spec none none 0 200 sampleStore1).2 (by decide)⟩

/-! ### C3: email uniqueness across operation sequences -/

theorem Store.find_of_mem_key (s : Store) (p : UUID × UserRead) (k : UUID)
    (hnd : keysNodup s) (hp : p ∈ s) (hk : p.1 = k) :
    Store.find s k = some p.2 := by
  induction s with
  | nil => cases hp
  | cons q t ih =>
    rw [Store.find_cons]
    rcases List.mem_cons.1 hp with rfl | hpt
    · rw [if_pos hk]
    · by_cases hq : q.1 = k
      · exfalso
        have hqk : q.1 ∈ t.map Prod.fst := by
          rw [hq, ← hk]
          exact List.mem_map.2 ⟨p, hpt, rfl⟩
        exact (List.nodup_cons.1 hnd).1 hqk
      · rw [if_neg hq]
        exact ih (List.nodup_cons.1 hnd).2 hpt

theorem Store.keys_set_of_any (s : Store) (k : UUID) (v : UserRead)
    (h : s.any (fun p => p.1 == k) = true) :
    (Store.set s k v).map Prod.fst = s.map Prod.fst := by
  unfold Store.set
  rw [if_pos h, List.map_map]
  apply List.map_congr_left
  intro p _
  by_cases hpk : p.1 = k
  · simp [hpk]
  · simp [hpk]

theorem keysNodup_set (s : Store) (k : UUID) (v : UserRead) (h : keysNodup s) :
    keysNodup (Store.set s k v) := by
  unfold keysNodup
  cases hany : s.any (fun p => p.1 == k) with
  | true => rw [Store.keys_set_of_any s k v hany]; exact h
  | false =>
    unfold Store.set
    rw [if_neg (by simp [hany])]
    rw [List.map_append]
    refine List.nodup_append.2 ⟨h, List.nodup_singleton k, ?_⟩
    intro x hx hx1
    have hxk : x = k := by simpa using hx1
    subst hxk
    obtain ⟨p, hpmem, hpk⟩ := List.mem_map.1 hx
    have := List.any_eq_false.1 hany p hpmem
    simp [hpk] at this

theorem keysNodup_erase (s : Store) (k : UUID) (h : keysNodup s) :
    keysNodup (Store.erase s k) :=
  ((List.filter_sublist s).map Prod.fst).nodup h

/-- Each state-changing request either leaves the store alone, erases one
key, or writes one key. -/
theorem Op.apply_shape (s : Store) (op : Op) :
    op.apply s = s ∨ (∃ k, op.apply s = Store.erase s k) ∨
      ∃ k v, op.apply s = Store.set s k v := by
  cases op with
  | createU inp nid pid now =>
    simp only [Op.apply]
    unfold create_user
    split
    · exact Or.inl rfl
    · exact Or.inr (Or.inr ⟨nid, _, rfl⟩)
  | replaceU uid inp now =>
    simp only [Op.apply]
    unfold replace_user
    cases hf : Store.find s uid with
    | none => exact Or.inl rfl
    | some old => exact Or.inr (Or.inr ⟨uid, _, rfl⟩)
  | patchU uid upd now =>
    simp only [Op.apply]
    unfold update_user
    cases hf : Store.find s uid with
    | none => exact Or.inl rfl
    | some stored =>
      cases upd.profile with
      | none => exact Or.inr (Or.inr ⟨uid, _, rfl⟩)
      | some opu =>
        cases opu with
        | none => exact Or.inr (Or.inr ⟨uid, _, rfl⟩)
        | some pu =>
          simp only [applyNonProfile]
          cases hsp : stored.profile with
          | none => exact Or.inr (Or.inr ⟨uid, _, rfl⟩)
          | some p => exact Or.inr (Or.inr ⟨uid, _, rfl⟩)
  | deleteU uid =>
    simp only [Op.apply]
    unfold delete_user
    cases hf : Store.find s uid with
    | none => exact Or.inl rfl
    | some u => exact Or.inr (Or.inl ⟨uid, rfl⟩)
  | putProfileU uid p now =>
    simp only [Op.apply]
    unfold update_user_profile
    split
    · exact Or.inl rfl
    · cases hf : Store.find s uid with
      | none => exact Or.inl rfl
      | some u => exact Or.inr (Or.inr ⟨uid, _, rfl⟩)

theorem keysNodup_apply (s : Store) (op : Op) (h : keysNodup s) :
    keysNodup (op.apply s) := by
  rcases Op.apply_shape s op with heq | ⟨k, heq⟩ | ⟨k, v, heq⟩
  · rw [heq]; exact h
  · rw [heq]; exact keysNodup_erase s k h
  · rw [heq]; exact keysNodup_set s k v h

/-- Overwriting the entry at `k` with a value of the same email leaves the
stored email sequence unchanged. -/
theorem emails_set_same (s : Store) (k : UUID) (u v : UserRead)
    (hnd : keysNodup s) (hf : Store.find s k = some u) (he : v.email = u.email) :
    (Store.set s k v).map (fun p => p.2.email) = s.map (fun p => p.2.email) := by
  have hany : s.any (fun p => p.1 == k) = true := by
    have hm := Store.find_mem s k u hf
    exact List.any_eq_true.2 ⟨(k, u), hm, by simp⟩
  unfold Store.set
  rw [if_pos hany, List.map_map]
  apply List.map_congr_left
  intro p hp
  by_cases hpk : p.1 = k
  · have := Store.find_of_mem_key s p k hnd hp hpk
    rw [hf] at this
    injection this with this
    simp [hpk, he, this]
  · simp [hpk]

/-- Writing a key with an email no stored user carries preserves email
uniqueness. -/
theorem emailUnique_set_fresh (s : Store) (k : UUID) (v : UserRead)
    (hnd : keysNodup s)
    (hfresh : s.any (fun p => p.2.email == v.email) = false)
    (h : emailUnique s) : emailUnique (Store.set s k v) := by
  unfold emailUnique at h ⊢
  cases hany : s.any (fun p => p.1 == k) with
  | false =>
    unfold Store.set
    rw [if_neg (by simp [hany]), List.map_append]
    refine List.nodup_append.2 ⟨h, List.nodup_singleton _, ?_⟩
    intro x hx hx1
    have hxv : x = v.email := by simpa using hx1
    subst hxv
    obtain ⟨p, hpmem, hpe⟩ := List.mem_map.1 hx
    have := List.any_eq_false.1 hfresh p hpmem
    simp [hpe] at this
  | true =>
    unfold Store.set
    rw [if_pos hany, List.map_map]
    have hform : s.map ((fun p => p.2.email) ∘ fun p => if p.1 == k then (k, v) else p) =
        s.map (fun p => if p.1 = k then v.email else p.2.email) := by
      apply List.map_congr_left
      intro p _
      by_cases hpk : p.1 = k <;> simp [hpk]
    rw [hform]
    clear hform hany
    induction s with
    | nil => exact List.nodup_nil
    | cons q t ih =>
      rw [List.map_cons]
      have hndt : (t.map Prod.fst).Nodup := (List.nodup_cons.1 hnd).2
      have hht := List.nodup_cons.1 h
      have hfq : ¬ (q.2.email == v.email) = true := by
        have := List.any_eq_false.1 hfresh q (List.mem_cons_self q t)
        exact this
      have hfresht : t.any (fun p => p.2.email == v.email) = false := by
        rw [List.any_eq_false]
        intro p hp
        exact List.any_eq_false.1 hfresh p (List.mem_cons_of_mem q hp)
      refine List.nodup_cons.2 ⟨?_, ih hndt hfresht hht.2⟩
      by_cases hqk : q.1 = k
      · rw [if_pos hqk]
        intro hmem
        obtain ⟨p, hpmem, hpe⟩ := List.mem_map.1 hmem
        by_cases hpk : p.1 = k
        · have : q.1 ∈ t.map Prod.fst := by
            rw [hqk, ← hpk]
            exact List.mem_map.2 ⟨p, hpmem, rfl⟩
          exact (List.nodup_cons.1 hnd).1 this
        · rw [if_neg hpk] at hpe
          have := List.any_eq_false.1 hfresht p hpmem
          simp [hpe] at this
      · rw [if_neg hqk]
        intro hmem
        obtain ⟨p, hpmem, hpe⟩ := List.mem_map.1 hmem
        by_cases hpk : p.1 = k
        · rw [if_pos hpk] at hpe
          simp [hpe] at hfq
        · rw [if_neg hpk] at hpe
          exact hht.1 (List.mem_map.2 ⟨p, hpmem, hpe⟩)

/-- Deleting an entry preserves email uniqueness. -/
theorem emailUnique_erase (s : Store) (k : UUID) (h : emailUnique s) :
    emailUnique (Store.erase s k) := by
  unfold emailUnique at h ⊢
  unfold Store.erase
  exact ((List.filter_sublist s).map (fun p => p.2.email)).nodup h

theorem emailUnique_set_same (s : Store) (k : UUID) (u v : UserRead)
    (hnd : keysNodup s) (hf : Store.find s k = some u) (he : v.email = u.email)
    (h : emailUnique s) : emailUnique (Store.set s k v) := by
  unfold emailUnique
  rw [emails_set_same s k u v hnd hf he]
  exact h

/-- Any email-safe request preserves email uniqueness. -/
theorem emailUnique_apply (s : Store) (op : Op) (hsafe : op.emailSafe)
    (hnd : keysNodup s) (h : emailUnique s) : emailUnique (op.apply s) := by
  cases op with
  | createU inp nid pid now =>
    simp only [Op.apply]
    unfold create_user
    split
    · exact h
    · next hcond =>
      have hfresh : s.any (fun p => p.2.email == inp.email) = false := by
        cases hx : s.any (fun p => p.2.email == inp.email) with
        | false => rfl
        | true => exact absurd hx hcond
      exact emailUnique_set_fresh s nid _ hnd hfresh h
  | replaceU uid inp now => exact hsafe.elim
  | patchU uid upd now =>
    have hemail : upd.email = none := hsafe
    simp only [Op.apply]
    unfold update_user
    cases hfind : Store.find s uid with
    | none => exact h
    | some stored =>
      cases hup : upd.profile with
      | none =>
        exact emailUnique_set_same s uid stored _ hnd hfind
          (by simp [applyNonProfile, hemail]) h
      | some opu =>
        cases opu with
        | none =>
          exact emailUnique_set_same s uid stored _ hnd hfind
            (by simp [applyNonProfile, hemail]) h
        | some pu =>
          simp only [applyNonProfile]
          cases hsp : stored.profile with
          | none =>
            exact emailUnique_set_same s uid stored _ hnd hfind
              (by simp [hemail]) h
          | some p =>
            exact emailUnique_set_same s uid stored _ hnd hfind
              (by simp [hemail]) h
  | deleteU uid =>
    simp only [Op.apply]
    unfold delete_user
    cases hfind : Store.find s uid with
    | none => exact h
    | some u => exact emailUnique_erase s uid h
  | putProfileU uid p now =>
    simp only [Op.apply]
    unfold update_user_profile
    split
    · exact h
    · cases hfind : Store.find s uid with
      | none => exact h
      | some u => exact emailUnique_set_same s uid u _ hnd hfind rfl h

/-- C3 counterexample: the claim as stated is false.  Create Jane, create
Bob, then `PUT /users/2` reusing Jane's email: `replace_user` performs no
email-uniqueness check, and afterwards two stored users share
`jane@x.com`. -/
theorem email_unique_not_invariant :
    ¬ (∀ ops : List Op, emailUnique (applyOps [] ops)) := by
  intro hAll
  have hc := hAll [Op.createU sampleJaneCreate 1 11 0,
    Op.createU sampleBobCreate 2 12 1, Op.replaceU 2 sampleBobAsJane 2]
  revert hc
  decide

/-- C3 amended: email uniqueness (case-sensitive exact comparison) is an
invariant of every operation sequence that contains no `replace` and no
merge-update that sets `email` — `create` enforces it, and `delete`,
profile put and email-less `PATCH` preserve it.  (`replace_user` and an
email-carrying `PATCH` write the email unchecked and can break it, as the
counterexample shows.) -/
theorem email_unique_invariant_safe (ops : List Op)
    (hsafe : ∀ op ∈ ops, op.emailSafe) :
    emailUnique (applyOps [] ops) := by
  have main : ∀ (l : List Op) (s : Store), keysNodup s → emailUnique s →
      (∀ op ∈ l, op.emailSafe) →
      emailUnique (applyOps s l) ∧ keysNodup (applyOps s l) := by
    intro l
    induction l with
    | nil => exact fun s h1 h2 _ => ⟨h2, h1⟩
    | cons op rest ih =>
      intro s h1 h2 hsafe2
      rw [show applyOps s (op :: rest) = applyOps (op.apply s) rest from rfl]
      exact ih (op.apply s) (keysNodup_apply s op h1)
        (emailUnique_apply s op (hsafe2 op (List.mem_cons_self op rest)) h1 h2)
        (fun o ho => hsafe2 o (List.mem_cons_of_mem op ho))
  exact (main ops [] (by unfold keysNodup; exact List.nodup_nil)
    (by unfold emailUnique; exact List.nodup_nil) hsafe).1

/-- C3 witness: a create/delete/create/patch/put-profile sequence, all
email-safe, ends with unique emails. -/
theorem email_unique_invariant_safe_witness :
    emailUnique (applyOps [] [Op.createU sampleJaneCreate 1 11 0, Op.deleteU 1,
      Op.createU sampleBobCreate 2 12 1, Op.patchU 2 pacePatch 6,
      Op.putProfileU 2 (defaultProfile 60 2 7) 7]) :=
  email_unique_invariant_safe _ (by
    intro op hop
    simp only [List.mem_cons] at hop
    rcases hop with rfl | rfl | rfl | rfl | rfl | hop
    · trivial
    · trivial
    · trivial
    · rfl
    · trivial
    · simp at hop)

/-! ### C4: profile presence and back-reference -/

theorem idMatch_set (s : Store) (k : UUID) (v : UserRead)
    (hv : v.id = k) (h : idMatch s) : idMatch (Store.set s k v) := by
  intro q hq
  rcases Store.mem_set s k v q hq with rfl | hq2
  · exact hv
  · exact h q hq2

theorem idMatch_erase (s : Store) (k : UUID) (h : idMatch s) :
    idMatch (Store.erase s k) := by
  intro q hq
  exact h q (List.mem_of_mem_filter hq)

theorem profileSome_set (s : Store) (k : UUID) (v : UserRead)
    (hv : v.profile.isSome) (h : profileSome s) : profileSome (Store.set s k v) := by
  intro q hq
  rcases Store.mem_set s k v q hq with rfl | hq2
  · exact hv
  · exact h q hq2

theorem profileSome_erase (s : Store) (k : UUID) (h : profileSome s) :
    profileSome (Store.erase s k) := by
  intro q hq
  exact h q (List.mem_of_mem_filter hq)

theorem profileOk_set (s : Store) (k : UUID) (v : UserRead)
    (hv : v.profile.map UserProfile.user_id = some v.id) (h : profileOk s) :
    profileOk (Store.set s k v) := by
  intro q hq
  rcases Store.mem_set s k v q hq with rfl | hq2
  · exact hv
  · exact h q hq2

theorem profileOk_erase (s : Store) (k : UUID) (h : profileOk s) :
    profileOk (Store.erase s k) := by
  intro q hq
  exact h q (List.mem_of_mem_filter hq)

/-- Every request preserves "each stored user has a profile". -/
theorem profileSome_apply (s : Store) (op : Op) (h : profileSome s) :
    profileSome (op.apply s) := by
  cases op with
  | createU inp nid pid now =>
    simp only [Op.apply]
    unfold create_user
    split
    · exact h
    · exact profileSome_set s nid _ rfl h
  | replaceU uid inp now =>
    simp only [Op.apply]
    unfold replace_user
    cases hfind : Store.find s uid with
    | none => exact h
    | some old =>
      have hold := h (uid, old) (Store.find_mem s uid old hfind)
      exact profileSome_set s uid _ hold h
  | patchU uid upd now =>
    simp only [Op.apply]
    unfold update_user
    cases hfind : Store.find s uid with
    | none => exact h
    | some stored =>
      have hstored := h (uid, stored) (Store.find_mem s uid stored hfind)
      cases hup : upd.profile with
      | none => exact profileSome_set s uid _ hstored h
      | some opu =>
        cases opu with
        | none => exact profileSome_set s uid _ hstored h
        | some pu =>
          simp only [applyNonProfile]
          cases hsp : stored.profile with
          | none => rw [hsp] at hstored; exact absurd hstored (by simp)
          | some p => exact profileSome_set s uid _ rfl h
  | deleteU uid =>
    simp only [Op.apply]
    unfold delete_user
    cases hfind : Store.find s uid with
    | none => exact h
    | some u => exact profileSome_erase s uid h
  | putProfileU uid p now =>
    simp only [Op.apply]
    unfold update_user_profile
    split
    · exact h
    · cases hfind : Store.find s uid with
      | none => exact h
      | some u => exact profileSome_set s uid _ rfl h

/-- Every profile-safe request preserves the back-reference invariant
(along with key/id agreement). -/
theorem profileOk_apply (s : Store) (op : Op) (hsafe : op.profileSafe)
    (hid : idMatch s) (h : profileOk s) :
    profileOk (op.apply s) ∧ idMatch (op.apply s) := by
  cases op with
  | createU inp nid pid now =>
    simp only [Op.apply]
    unfold create_user
    split
    · exact ⟨h, hid⟩
    · exact ⟨profileOk_set s nid _ rfl h, idMatch_set s nid _ rfl hid⟩
  | replaceU uid inp now =>
    simp only [Op.apply]
    unfold replace_user
    cases hfind : Store.find s uid with
    | none => exact ⟨h, hid⟩
    | some old =>
      have hmem := Store.find_mem s uid old hfind
      have hold := h (uid, old) hmem
      have holdid : old.id = uid := hid (uid, old) hmem
      refine ⟨profileOk_set s uid _ ?_ h, idMatch_set s uid _ rfl hid⟩
      show old.profile.map UserProfile.user_id = some uid
      rw [hold, holdid]
  | patchU uid upd now =>
    simp only [Op.apply]
    unfold update_user
    cases hfind : Store.find s uid with
    | none => exact ⟨h, hid⟩
    | some stored =>
      have hmem := Store.find_mem s uid stored hfind
      have hstored := h (uid, stored) hmem
      have hstoredid : stored.id = uid := hid (uid, stored) hmem
      cases hup : upd.profile with
      | none =>
        exact ⟨profileOk_set s uid _ hstored h,
          idMatch_set s uid _ hstoredid hid⟩
      | some opu =>
        cases opu with
        | none =>
          exact ⟨profileOk_set s uid _ hstored h,
            idMatch_set s uid _ hstoredid hid⟩
        | some pu =>
          have hpu : pu.user_id = none := hsafe pu hup
          simp only [applyNonProfile]
          cases hsp : stored.profile with
          | none => rw [hsp] at hstored; exact absurd hstored (by simp)
          | some p =>
            rw [hsp] at hstored
            simp only [Option.map_some] at hstored
            injection hstored with hback
            refine ⟨profileOk_set s uid _ ?_ h, idMatch_set s uid _ hstoredid hid⟩
            show some (applyProfileUpdate pu p).user_id = some stored.id
            simp [applyProfileUpdate, hpu, hback]
  | deleteU uid =>
    simp only [Op.apply]
    unfold delete_user
    cases hfind : Store.find s uid with
    | none => exact ⟨h, hid⟩
    | some u => exact ⟨profileOk_erase s uid h, idMatch_erase s uid hid⟩
  | putProfileU uid p now =>
    simp only [Op.apply]
    unfold update_user_profile
    split
    · exact ⟨h, hid⟩
    · cases hfind : Store.find s uid with
      | none => exact ⟨h, hid⟩
      | some u =>
        have hback : p.user_id = uid := hsafe
        have huid : u.id = uid := hid (uid, u) (Store.find_mem s uid u hfind)
        refine ⟨profileOk_set s uid _ ?_ h, idMatch_set s uid _ huid hid⟩
        show some p.user_id = some u.id
        rw [hback, huid]

/-- C4 counterexample: the claim as stated is false.  Create Jane (id 1),
then `PUT /users/1/profile` with a body whose `user_id` is 99: the handler
stores the client-supplied profile verbatim, so the stored profile's
back-reference no longer equals the user's id. -/
theorem profile_backref_not_invariant :
    ¬ (∀ ops : List Op, profileOk (applyOps [] ops)) := by
  intro hAll
  have hc := hAll [Op.createU sampleJaneCreate 1 11 0,
    Op.putProfileU 1 strayProfile 2]
  revert hc
  decide

/-- C4 amended: starting from the empty store, every stored user always has
exactly one embedded profile (`profile` is not `None`) after any operation
sequence; and `profile.user_id` equals the user's id provided no profile
put carries a foreign `user_id` and no merge-update's profile dict sets
`user_id` (those two writes store the client's back-reference unchecked, as
the counterexample shows). -/
theorem profile_backref_invariant_amended (ops : List Op) :
    profileSome (applyOps [] ops) ∧
    ((∀ op ∈ ops, op.profileSafe) → profileOk (applyOps [] ops)) := by
  constructor
  · have main : ∀ (l : List Op) (s : Store), profileSome s →
        profileSome (applyOps s l) := by
      intro l
      induction l with
      | nil => exact fun s hs => hs
      | cons op rest ih =>
        intro s hs
        exact ih (op.apply s) (profileSome_apply s op hs)
    exact main ops [] (by intro p hp; cases hp)
  · intro hsafe
    have main : ∀ (l : List Op) (s : Store), idMatch s → profileOk s →
        (∀ op ∈ l, op.profileSafe) → profileOk (applyOps s l) ∧ idMatch (applyOps s l) := by
      intro l
      induction l with
      | nil => exact fun s h1 h2 _ => ⟨h2, h1⟩
      | cons op rest ih =>
        intro s h1 h2 hsafe2
        have hstep := profileOk_apply s op (hsafe2 op (List.mem_cons_self op rest)) h1 h2
        exact ih (op.apply s) hstep.2 hstep.1
          (fun o ho => hsafe2 o (List.mem_cons_of_mem op ho))
    exact (main ops [] (by intro p hp; cases hp) (by intro p hp; cases hp) hsafe).1

/-- C4 witness: create, aligned profile put, `user_id`-free patch — the
profile stays present and back-referenced. -/
theorem profile_backref_invariant_amended_witness :
    profileSome (applyOps [] [Op.createU sampleJaneCreate 1 11 0,
      Op.putProfileU 1 (defaultProfile 60 1 7) 7, Op.patchU 1 pacePatch 8]) ∧
    profileOk (applyOps [] [Op.createU sampleJaneCreate 1 11 0,
      Op.putProfileU 1 (defaultProfile 60 1 7) 7, Op.patchU 1 pacePatch 8]) := by
  have hsafe : ∀ op ∈ [Op.createU sampleJaneCreate 1 11 0,
      Op.putProfileU 1 (defaultProfile 60 1 7) 7, Op.patchU 1 pacePatch 8],
      op.profileSafe := by
    intro op hop
    simp only [List.mem_cons] at hop
    rcases hop with rfl | rfl | rfl | hop
    · trivial
    · rfl
    · intro pu hpu
      simp only [pacePatch, Option.some.injEq] at hpu
      rw [← hpu]
    · simp at hop
  have h := profile_backref_invariant_amended [Op.createU sampleJaneCreate 1 11 0,
    Op.putProfileU 1 (defaultProfile 60 1 7) 7, Op.patchU 1 pacePatch 8]
  exact ⟨h.1, h.2 hsafe⟩

/-! ### C10: the ETag -/

theorem md5Chunk_lt (st : Nat × Nat × Nat × Nat) (c : List Nat) :
    (md5Chunk st c).1 < 4294967296 ∧ (md5Chunk st c).2.1 < 4294967296 ∧
    (md5Chunk st c).2.2.1 < 4294967296 ∧ (md5Chunk st c).2.2.2 < 4294967296 := by
  unfold md5Chunk add32
  exact ⟨Nat.mod_lt _ (by norm_num), Nat.mod_lt _ (by norm_num),
    Nat.mod_lt _ (by norm_num), Nat.mod_lt _ (by norm_num)⟩

theorem md5Chunks_lt (cs : List (List Nat)) (st : Nat × Nat × Nat × Nat)
    (hst : st.1 < 4294967296 ∧ st.2.1 < 4294967296 ∧
      st.2.2.1 < 4294967296 ∧ st.2.2.2 < 4294967296) :
    (cs.foldl md5Chunk st).1 < 4294967296 ∧ (cs.foldl md5Chunk st).2.1 < 4294967296 ∧
    (cs.foldl md5Chunk st).2.2.1 < 4294967296 ∧ (cs.foldl md5Chunk st).2.2.2 < 4294967296 := by
  induction cs generalizing st with
  | nil => exact hst
  | cons c rest ih => exact ih (md5Chunk st c) (md5Chunk_lt st c)

theorem md5Words_lt (msg : List Nat) :
    (md5Words msg).1 < 4294967296 ∧ (md5Words msg).2.1 < 4294967296 ∧
    (md5Words msg).2.2.1 < 4294967296 ∧ (md5Words msg).2.2.2 < 4294967296 := by
  unfold md5Words md5Chunks
  exact md5Chunks_lt _ _ (by norm_num)

/-- C10 counterexample: the "ETag changes if and only if some field
changes" direction fails in principle: the ETag is a 128-bit MD5 digest, so
the users `stampedUser n` (pairwise distinct — they differ in `created_at`)
cannot all receive distinct ETags; two distinct stored users share an ETag
even though every field of one differs from the other's in `created_at`. -/
theorem etag_not_injective :
    ¬ (∀ u v : UserRead, etagOf u = etagOf v → u = v) := by
  intro hinj
  have hlt : ∀ n : ℕ, (md5Words (strBytes (stampedUser n).json)).1 < 4294967296 ∧
      (md5Words (strBytes (stampedUser n).json)).2.1 < 4294967296 ∧
      (md5Words (strBytes (stampedUser n).json)).2.2.1 < 4294967296 ∧
      (md5Words (strBytes (stampedUser n).json)).2.2.2 < 4294967296 :=
    fun n => md5Words_lt _
  let F : ℕ → Fin 4294967296 × Fin 4294967296 × Fin 4294967296 × Fin 4294967296 :=
    fun n =>
      (⟨(md5Words (strBytes (stampedUser n).json)).1, (hlt n).1⟩,
       ⟨(md5Words (strBytes (stampedUser n).json)).2.1, (hlt n).2.1⟩,
       ⟨(md5Words (strBytes (stampedUser n).json)).2.2.1, (hlt n).2.2.1⟩,
       ⟨(md5Words (strBytes (stampedUser n).json)).2.2.2, (hlt n).2.2.2⟩)
  obtain ⟨m, n, hmn, hF⟩ := Finite.exists_ne_map_eq_of_infinite F
  have h1 : (md5Words (strBytes (stampedUser m).json)).1 =
      (md5Words (strBytes (stampedUser n).json)).1 :=
    congrArg (fun q => q.1.val) hF
  have h2 : (md5Words (strBytes (stampedUser m).json)).2.1 =
      (md5Words (strBytes (stampedUser n).json)).2.1 :=
    congrArg (fun q => q.2.1.val) hF
  have h3 : (md5Words (strBytes (stampedUser m).json)).2.2.1 =
      (md5Words (strBytes (stampedUser n).json)).2.2.1 :=
    congrArg (fun q => q.2.2.1.val) hF
  have h4 : (md5Words (strBytes (stampedUser m).json)).2.2.2 =
      (md5Words (strBytes (stampedUser n).json)).2.2.2 :=
    congrArg (fun q => q.2.2.2.val) hF
  have hw : md5Words (strBytes (stampedUser m).json) =
      md5Words (strBytes (stampedUser n).json) :=
    Prod.ext_iff.2 ⟨h1, Prod.ext_iff.2 ⟨h2, Prod.ext_iff.2 ⟨h3, h4⟩⟩⟩
  have hetag : etagOf (stampedUser m) = etagOf (stampedUser n) := by
    unfold etagOf md5Hex
    rw [hw]
  have heq := hinj _ _ hetag
  exact hmn (congrArg UserRead.created_at heq)

/-- C10 amended: the ETag is a deterministic digest of the canonical JSON
encoding of the stored user — two reads of identical stored content
(whatever stores or keys they come through) return equal ETags, and the
ETag cannot change unless some field changes; but a change of content is
not guaranteed a distinct digest, since the 128-bit ETag can collide
(the counterexample). -/
theorem etag_deterministic
    (s1 s2 : Store) (k1 k2 : UUID) (u1 u2 : UserRead) (e1 e2 : String)
    (h1 : (get_user k1 s1).1 = Except.ok (u1, e1))
    (h2 : (get_user k2 s2).1 = Except.ok (u2, e2))
    (hu : u1 = u2) : e1 = e2 := by
  unfold get_user at h1 h2
  cases hf1 : Store.find s1 k1 with
  | none => rw [hf1] at h1; exact absurd h1 (by simp)
  | some w1 =>
    rw [hf1] at h1
    cases hf2 : Store.find s2 k2 with
    | none => rw [hf2] at h2; exact absurd h2 (by simp)
    | some w2 =>
      rw [hf2] at h2
      simp only at h1 h2
      injection h1 with h1
      injection h2 with h2
      obtain ⟨hw1, he1⟩ := Prod.mk.injEq .. ▸ h1
      obtain ⟨hw2, he2⟩ := Prod.mk.injEq .. ▸ h2
      subst hw1 hw2
      rw [← he1, ← he2, hu]

/-- C10 witness: reads of the same content through two different stores
yield the same ETag. -/
theorem etag_deterministic_witness : etagOf sampleJaneRead = etagOf sampleJaneRead :=
  etag_deterministic sampleStore1 [(2, pacedJane), (1, sampleJaneRead)] 1 1
    sampleJaneRead sampleJaneRead (etagOf sampleJaneRead) (etagOf sampleJaneRead)
    rfl rfl rfl
